import Mathlib

/-!
Shallow embedding of the darty fetch/cache/extract pipeline
(`src/backend/cache_manager.py` and `src/backend/scraper.py`).

Modelling conventions:
* `datetime.now()` is passed in explicitly as an `Int` timestamp; the TTL
  (`timedelta(hours=ttl_hours)`) is an `Int` duration, and the expiry test
  `datetime.now() - cached_time > self.ttl` becomes `now - timestamp > ttl`.
* `hashlib.md5(url.encode()).hexdigest()` is an external library call; the
  digest function is a parameter `md5Hex : String → String` of every cache
  operation (claims hold for an arbitrary digest function).
* The on-disk cache directory (one `{key}.json` file per entry) is an
  association list `CacheState` from the digest key to the decoded record
  `{url, content, timestamp}`; `f.stat().st_size` of a cache file is an
  external filesystem quantity, passed as `fsize : CacheEntry → Nat`.
* Exceptions are modelled with `Option`: a raising computation yields `none`.
-/

/-- One cache record, the decoded contents of a `{key}.json` file:
`{'url': url, 'content': content, 'timestamp': now}`. -/
structure CacheEntry where
  url : String
  content : String
  timestamp : Int
deriving DecidableEq, Repr

/-- The cache directory: one record per digest key. -/
abbrev CacheState := List (String × CacheEntry)

/-- Look up the record stored under key `k` (does the file `{k}.json` exist,
and if so what does it hold). -/
def lookupKey (k : String) : CacheState → Option CacheEntry
  | [] => none
  | p :: rest => if p.1 = k then some p.2 else lookupKey k rest

/-- Delete the file `{k}.json` (`cache_path.unlink()`). -/
def eraseKey (k : String) (st : CacheState) : CacheState :=
  st.filter (fun p => p.1 != k)

/-- Write (or overwrite) the file `{k}.json` with record `e`. -/
def setKey (k : String) (e : CacheEntry) (st : CacheState) : CacheState :=
  (k, e) :: eraseKey k st

namespace CacheManager

/-- Model of `CacheManager.get` (cache_manager.py lines 56-87): compute the key,
return `None` when the file is absent; when present and expired
(`now - cached_time > ttl`) delete the file and return `None`; otherwise
return the stored content.  Returns the result together with the cache
state after the call. -/
def get (md5Hex : String → String) (ttl now : Int) (st : CacheState)
    (url : String) : Option String × CacheState :=
  let key := md5Hex url
  match lookupKey key st with
  | none => (none, st)
  | some e =>
    if now - e.timestamp > ttl then (none, eraseKey key st)
    else (some e.content, st)

/-- Model of `CacheManager.set` (lines 89-117): write the record
`{'url': url, 'content': content, 'timestamp': now}` under the digest key,
returning `True` on the success path. -/
def set (md5Hex : String → String) (now : Int) (st : CacheState)
    (url content : String) : Bool × CacheState :=
  (true, setKey (md5Hex url) ⟨url, content, now⟩ st)

/-- Model of `CacheManager.invalidate` (lines 119-138): delete the file when it
exists, return `True` either way. -/
def invalidate (md5Hex : String → String) (st : CacheState)
    (url : String) : Bool × CacheState :=
  let key := md5Hex url
  (true, if (lookupKey key st).isSome then eraseKey key st else st)

/-- Model of `CacheManager.clear_all` (lines 140-153): unlink every `*.json` file. -/
def clear_all (_st : CacheState) : Bool × CacheState :=
  (true, [])

/-- Statistics returned by `CacheManager.get_cache_stats` (the float field
`total_size_mb` is derived from `total_size_bytes` and not modelled). -/
structure CacheStats where
  total_items : Nat
  total_size_bytes : Nat
deriving DecidableEq, Repr

/-- Model of `CacheManager.get_cache_stats` (lines 155-169): enumerate the `*.json`
files at call time; `total_items` is their number, `total_size_bytes` the
sum of their on-disk sizes. -/
def get_cache_stats (fsize : CacheEntry → Nat) (st : CacheState) : CacheStats :=
  ⟨st.length, (st.map (fun p => fsize p.2)).sum⟩

end CacheManager

/-! Basic association-list lemmas about the cache directory. -/

theorem lookupKey_eraseKey_self (k : String) (st : CacheState) :
    lookupKey k (eraseKey k st) = none := by
  induction st with
  | nil => rfl
  | cons p rest ih =>
    by_cases h : p.1 = k
    · simpa [eraseKey, List.filter_cons, h] using ih
    · simpa [eraseKey, List.filter_cons, h, lookupKey] using ih

theorem lookupKey_setKey_self (k : String) (e : CacheEntry) (st : CacheState) :
    lookupKey k (setKey k e st) = some e := by
  simp [setKey, lookupKey]

theorem eraseKey_idem (k : String) (st : CacheState) :
    eraseKey k (eraseKey k st) = eraseKey k st := by
  simp [eraseKey, List.filter_filter]

theorem eraseKey_setKey (k : String) (e : CacheEntry) (st : CacheState) :
    eraseKey k (setKey k e st) = eraseKey k st := by
  simp [setKey, eraseKey, List.filter, List.filter_filter]

theorem eraseKey_of_lookupKey_none (k : String) (st : CacheState)
    (h : lookupKey k st = none) : eraseKey k st = st := by
  induction st with
  | nil => rfl
  | cons p rest ih =>
    by_cases hp : p.1 = k
    · simp [lookupKey, hp] at h
    · simp [lookupKey, hp] at h
      simp only [eraseKey, List.filter_cons] at ih ⊢
      simp [hp, ih h]

theorem length_setKey (k : String) (e : CacheEntry) (st : CacheState) :
    (setKey k e st).length = (eraseKey k st).length + 1 := by
  simp [setKey]

/-!
HTML model.  BeautifulSoup is an external library; a parsed document is a
forest of nodes (tags with children, and text nodes).  The parser itself is
a parameter `parse : String → Option HtmlForest` of the scraper model;
`none` models `BeautifulSoup` raising on the given markup.
-/

mutual
/-- A parsed markup node: either a text node or an element with a tag name
and a forest of children.  (`HtmlForest` is an inlined list of nodes; the
mutual presentation keeps all recursions structural.) -/
inductive Html where
  | text : List Char → Html
  | elem : String → HtmlForest → Html
inductive HtmlForest where
  | nil : HtmlForest
  | cons : Html → HtmlForest → HtmlForest
end

/-- Build a forest from a list of nodes (literal notation helper). -/
def HtmlForest.ofList : List Html → HtmlForest
  | [] => HtmlForest.nil
  | h :: t => HtmlForest.cons h (HtmlForest.ofList t)

/-- The tags removed by `_extract_text_from_html` (scraper.py line 97):
`soup(["script", "style", "nav", "footer", "header"])` followed by
`tag.decompose()`. -/
def bannedTags : List String := ["script", "style", "nav", "footer", "header"]

/-- Remove every element whose tag is in `bannedTags`, subtree included
(`tag.decompose()` removes the whole subtree wherever it occurs). -/
def decomposeForest : HtmlForest → HtmlForest
  | HtmlForest.nil => HtmlForest.nil
  | HtmlForest.cons (Html.text s) rest =>
    HtmlForest.cons (Html.text s) (decomposeForest rest)
  | HtmlForest.cons (Html.elem t cs) rest =>
    if t ∈ bannedTags then decomposeForest rest
    else HtmlForest.cons (Html.elem t (decomposeForest cs)) (decomposeForest rest)

/-- All text-node strings of a forest, in document order. -/
def textNodes : HtmlForest → List (List Char)
  | HtmlForest.nil => []
  | HtmlForest.cons (Html.text s) rest => s :: textNodes rest
  | HtmlForest.cons (Html.elem _ cs) rest => textNodes cs ++ textNodes rest

/-- Python `str.strip()`: drop leading and trailing whitespace. -/
def pyStrip (s : List Char) : List Char :=
  ((s.dropWhile Char.isWhitespace).reverse.dropWhile Char.isWhitespace).reverse

/-- Join a list of character strings with a single `' '` separator
(Python `' '.join(...)`). -/
def joinSep : List (List Char) → List Char
  | [] => []
  | [g] => g
  | g :: g' :: gs => g ++ ' ' :: joinSep (g' :: gs)

/-- Grouping pass of Python `str.split()`: cut the string at every
whitespace character. -/
def wordGroups (l : List Char) : List (List Char) :=
  l.foldr
    (fun c acc =>
      if c.isWhitespace then [] :: acc
      else
        match acc with
        | [] => [[c]]
        | w :: ws => (c :: w) :: ws)
    []

/-- Python `str.split()` with no argument: maximal runs of non-whitespace
characters. -/
def pyWords (l : List Char) : List (List Char) :=
  (wordGroups l).filter (fun w => w ≠ [])

/-- Model of `soup.get_text(strip=True, separator=' ')`: strip every text node,
drop the ones that become empty, join the rest with single spaces. -/
def getText (f : HtmlForest) : List Char :=
  joinSep (((textNodes f).map pyStrip).filter (fun w => w ≠ []))

/-- Model of `' '.join(text.split())` (scraper.py line 104). -/
def pyCollapse (l : List Char) : List Char :=
  joinSep (pyWords l)

/-- Characters produced by `_extract_text_from_html` before the final
truncation: decompose the banned tags, take the text, collapse whitespace. -/
def extractChars (f : HtmlForest) : List Char :=
  pyCollapse (getText (decomposeForest f))

/-- Python slicing `s[:n]`. -/
def pyTake (n : Nat) (s : String) : String :=
  ⟨s.data.take n⟩

/-- Model of `DocScraper._extract_text_from_html` (scraper.py lines 82-110): parse the
markup, remove script/style/nav/footer/header, get the text with stripping
and a space separator, collapse whitespace runs, truncate to `max_chars`.
A parser exception (`parse html = none`) is caught and yields `""`. -/
def extract_text_from_html (parse : String → Option HtmlForest)
    (html : String) (max_chars : Nat) : String :=
  match parse html with
  | none => ""
  | some f => ⟨(extractChars f).take max_chars⟩

/-- First element with the given tag, in document order (`soup.title`),
returning its children. -/
def findTag (tag : String) : HtmlForest → Option HtmlForest
  | HtmlForest.nil => none
  | HtmlForest.cons (Html.text _) rest => findTag tag rest
  | HtmlForest.cons (Html.elem t cs) rest =>
    if t = tag then some cs
    else
      match findTag tag cs with
      | some r => some r
      | none => findTag tag rest

/-- BeautifulSoup `.string` on a tag: the single text child if there is
exactly one child, recursing through a single element child; `None`
otherwise. -/
def stringOf : HtmlForest → Option String
  | HtmlForest.cons (Html.text s) HtmlForest.nil => some ⟨s⟩
  | HtmlForest.cons (Html.elem _ cs) HtmlForest.nil => stringOf cs
  | _ => none

/-- Model of `soup.title.string if soup.title else fallback` as used in the scrape
methods (the fallback is the url for educational resources, a constant
title for the two primary pages). -/
def pageTitle (f : HtmlForest) (fallback : String) : Option String :=
  match findTag "title" f with
  | none => some fallback
  | some cs => stringOf cs

/-!
Scraper model (`src/backend/scraper.py`).  The network is a parameter
`net : String → Option String` (`none` models `requests.RequestException`,
`some content` a successful response's `response.text`); the parser is a
parameter `parse` as above.  Cache state is threaded explicitly.
-/

/-- One scraped document, the dict `{'url': ..., 'title': ..., 'content': ...}`
built by the scrape methods.  `title` is `Option` because
`soup.title.string` can be `None`. -/
structure ScrapedDoc where
  url : String
  title : Option String
  content : String
deriving DecidableEq, Repr

namespace DocScraper

/-- scraper.py line 16. -/
def DART_ARCHIVE_URL : String := "https://dart.dev/get-dart/archive"

/-- scraper.py line 17. -/
def FLUTTER_RELEASES_URL : String := "https://docs.flutter.dev/release/release-notes"

/-- scraper.py lines 20-32: the fixed supplementary descriptor list. -/
def EDUCATIONAL_URLS : List String :=
  [ "https://www.educative.io/courses/learn-dart-first-step-to-flutter/an-introduction-to-control-structures"
  , "https://pub.dev/"
  , "https://dart.dev/tutorials"
  , "https://dart.dev/language"
  , "https://code.makery.ch/library/topic/dart/"
  , "https://dart.dev/docs"
  , "https://dart.dev/guides"
  , "https://dart.dev/guides/language/language-tour"
  , "https://docs.flutter.dev/get-started/install"
  , "https://docs.flutter.dev/development/ui/widgets-intro"
  , "https://docs.flutter.dev/cookbook"
  ]

/-- Model of `DocScraper._fetch_url` (scraper.py lines 47-80): when `use_cache`, ask
the cache first and return the cached content if it is truthy
(`if cached_content:` is false for both `None` and `""`); otherwise perform
the network request, store a successful response in the cache, and return
it; a request exception yields `None`. -/
def fetch_url (md5Hex : String → String) (ttl now : Int)
    (net : String → Option String) (use_cache : Bool)
    (st : CacheState) (url : String) : Option String × CacheState :=
  let cachedPair := if use_cache then CacheManager.get md5Hex ttl now st url
                    else (none, st)
  let st1 := cachedPair.2
  match cachedPair.1 with
  | some c =>
    if c ≠ "" then (some c, st1)
    else
      match net url with
      | none => (none, st1)
      | some content =>
        (some content,
          if use_cache then (CacheManager.set md5Hex now st1 url content).2
          else st1)
  | none =>
    match net url with
    | none => (none, st1)
    | some content =>
      (some content,
        if use_cache then (CacheManager.set md5Hex now st1 url content).2
        else st1)

/-- Model of `DocScraper.scrape_dart_archive` / `scrape_flutter_releases`
(scraper.py lines 112-162): fetch the page; a falsy result (`None` or `""`)
yields `None`; a parser exception yields `None`; otherwise build the dict
with the page title (falling back to `default_title`) and the text
extracted under a 3000-character budget. -/
def scrapePage (md5Hex : String → String) (ttl now : Int)
    (net : String → Option String) (parse : String → Option HtmlForest)
    (st : CacheState) (url default_title : String) :
    Option ScrapedDoc × CacheState :=
  match fetch_url md5Hex ttl now net true st url with
  | (none, st1) => (none, st1)
  | (some html, st1) =>
    if html = "" then (none, st1)
    else
      match parse html with
      | none => (none, st1)
      | some f =>
        (some ⟨url, pageTitle f default_title,
               extract_text_from_html parse html 3000⟩, st1)

/-- Model of `DocScraper.scrape_educational_resources` (scraper.py lines 164-198):
iterate the url list in order; a falsy fetch result (`None` or `""`) is
skipped with `continue`; a parser exception is caught and the url skipped;
otherwise the result dict is appended (the append happens before the
logging line that could raise, so it is unconditional) with the text
extracted under a 2000-character budget and the url as title fallback. -/
def scrapeResources (md5Hex : String → String) (ttl now : Int)
    (net : String → Option String) (parse : String → Option HtmlForest) :
    List String → CacheState → List ScrapedDoc × CacheState
  | [], st => ([], st)
  | url :: rest, st =>
    match fetch_url md5Hex ttl now net true st url with
    | (none, st1) => scrapeResources md5Hex ttl now net parse rest st1
    | (some html, st1) =>
      if html = "" then scrapeResources md5Hex ttl now net parse rest st1
      else
        match parse html with
        | none => scrapeResources md5Hex ttl now net parse rest st1
        | some f =>
          let r : ScrapedDoc :=
            ⟨url, pageTitle f url, extract_text_from_html parse html 2000⟩
          let tail := scrapeResources md5Hex ttl now net parse rest st1
          (r :: tail.1, tail.2)

/-- The dict returned by `DocScraper.get_all_documentation`
(scraper.py lines 200-221). -/
structure Documentation where
  dart_archive : Option ScrapedDoc
  flutter_releases : Option ScrapedDoc
  educational_resources : List ScrapedDoc
deriving DecidableEq, Repr

/-- Model of `DocScraper.get_all_documentation` (scraper.py lines 200-221): scrape
the two primary pages, then the supplementary list (`edu_urls` is
`EDUCATIONAL_URLS` in the source; it is a parameter here so that runs over
other descriptor lists can be stated). -/
def get_all_documentation (md5Hex : String → String) (ttl now : Int)
    (net : String → Option String) (parse : String → Option HtmlForest)
    (edu_urls : List String) (st : CacheState) :
    Documentation × CacheState :=
  let dart := scrapePage md5Hex ttl now net parse st DART_ARCHIVE_URL
                "Dart SDK Archive"
  let flutter := scrapePage md5Hex ttl now net parse dart.2
                  FLUTTER_RELEASES_URL "Flutter Release Notes"
  let edu := scrapeResources md5Hex ttl now net parse edu_urls flutter.2
  (⟨dart.1, flutter.1, edu.1⟩, edu.2)

/-- scraper.py line 235: the fixed first entry of `context_parts`. -/
def headerStr : String := "# معلومات من المصادر الرسمية والتعليمية\n"

/-- scraper.py lines 239-243: the Dart-archive section of the summary; the
content is cut to its first 800 characters. -/
def dartSectionStr (d : ScrapedDoc) : String :=
  "\n## أرشيف Dart SDK\nالمصدر: " ++ d.url ++ "\nالمحتوى: "
    ++ pyTake 800 d.content ++ "\n"

/-- scraper.py lines 247-251: the Flutter-releases section; content cut to
800 characters. -/
def flutterSectionStr (d : ScrapedDoc) : String :=
  "\n## ملاحظات إصدارات Flutter\nالمصدر: " ++ d.url ++ "\nالمحتوى: "
    ++ pyTake 800 d.content ++ "\n"

/-- scraper.py line 255: the supplementary-sources heading. -/
def eduHeaderStr : String := "\n## الموارد التعليمية\n"

/-- scraper.py lines 258-262: one supplementary section, with the title cut
to 60 and the content to 600 characters. -/
def eduSectionStr (i : Nat) (t : String) (r : ScrapedDoc) : String :=
  "\n### مصدر " ++ toString i ++ ": " ++ pyTake 60 t ++ "\nURL: "
    ++ r.url ++ "\nمحتوى: " ++ pyTake 600 r.content ++ "\n"

/-- One supplementary section; `resource['title'][:60]` raises when the
title is `None`, modelled as `none`. -/
def eduSection (i : Nat) (r : ScrapedDoc) : Option String :=
  match r.title with
  | none => none
  | some t => some (eduSectionStr i t r)

/-- The loop of scraper.py line 257, starting at index `i`
(`enumerate(..., 1)` starts at 1): one section per resource, aborting the
whole summary when a section raises. -/
def eduSectionsFrom (i : Nat) : List ScrapedDoc → Option (List String)
  | [] => some []
  | r :: rs =>
    match eduSection i r with
    | none => none
    | some s =>
      match eduSectionsFrom (i + 1) rs with
      | none => none
      | some tail => some (s :: tail)

/-- Sections for `documentation['educational_resources'][:8]`. -/
def eduSectionsOpt (rs : List ScrapedDoc) : Option (List String) :=
  eduSectionsFrom 1 (rs.take 8)

/-- The `context_parts` list built by `DocScraper.build_context_summary`
(scraper.py lines 223-262): the fixed header, a section per present primary
page, then — only when the supplementary list is truthy (non-empty) — the
supplementary heading and one section per resource among the first 8.
`none` models the `TypeError` raised by `resource['title'][:60]` when a
title is `None`. -/
def buildParts (docs : Documentation) : Option (List String) :=
  let base :=
    [headerStr]
      ++ (match docs.dart_archive with
          | some d => [dartSectionStr d]
          | none => [])
      ++ (match docs.flutter_releases with
          | some d => [flutterSectionStr d]
          | none => [])
  if docs.educational_resources = [] then some base
  else
    match eduSectionsOpt docs.educational_resources with
    | none => none
    | some secs => some (base ++ eduHeaderStr :: secs)

/-- Model of `DocScraper.build_context_summary` (scraper.py lines 223-272):
`"\n".join(context_parts)`. -/
def build_context_summary (docs : Documentation) : Option String :=
  (buildParts docs).map (fun ps => String.intercalate "\n" ps)

end DocScraper

/-!
Claim theorems: content cache.
-/

/-- C1: if `set(a, c)` succeeded at time `t0` and `get(a)` is called at a
time strictly later than `t0 + ttl`, then `get(a)` returns a miss, the
stored entry is deleted by that very read, and a subsequent `stats()` no
longer counts the entry (its item count drops by one relative to the state
after the write). -/
theorem C1_expiry_lazy_eviction (md5Hex : String → String)
    (fsize : CacheEntry → Nat) (ttl t0 now : Int) (st : CacheState)
    (url content : String) (hlate : t0 + ttl < now) :
    (CacheManager.set md5Hex t0 st url content).1 = true ∧
    (CacheManager.get md5Hex ttl now
        (CacheManager.set md5Hex t0 st url content).2 url).1 = none ∧
    lookupKey (md5Hex url)
      (CacheManager.get md5Hex ttl now
        (CacheManager.set md5Hex t0 st url content).2 url).2 = none ∧
    (CacheManager.get_cache_stats fsize
        (CacheManager.get md5Hex ttl now
          (CacheManager.set md5Hex t0 st url content).2 url).2).total_items + 1
      = (CacheManager.get_cache_stats fsize
          (CacheManager.set md5Hex t0 st url content).2).total_items := by
  have hexp : now - t0 > ttl := by omega
  refine ⟨rfl, ?_, ?_, ?_⟩
  · simp [CacheManager.get, CacheManager.set, lookupKey_setKey_self, hexp]
  · simp [CacheManager.get, CacheManager.set, lookupKey_setKey_self, hexp,
      eraseKey_setKey, lookupKey_eraseKey_self]
  · simp [CacheManager.get, CacheManager.set, CacheManager.get_cache_stats,
      lookupKey_setKey_self, hexp, eraseKey_setKey, length_setKey]

/-- Witness for C1 at concrete inputs: digest is the identity, `ttl = 24`,
write at time 0, read at time 25. -/
theorem C1_expiry_lazy_eviction_witness :
    ((0 : Int) + 24 < 25) ∧
    ((CacheManager.set (fun s => s) 0 [] "a" "c").1 = true ∧
     (CacheManager.get (fun s => s) 24 25
        (CacheManager.set (fun s => s) 0 [] "a" "c").2 "a").1 = none ∧
     lookupKey "a"
       (CacheManager.get (fun s => s) 24 25
         (CacheManager.set (fun s => s) 0 [] "a" "c").2 "a").2 = none ∧
     (CacheManager.get_cache_stats (fun _ => 1)
         (CacheManager.get (fun s => s) 24 25
           (CacheManager.set (fun s => s) 0 [] "a" "c").2 "a").2).total_items + 1
       = (CacheManager.get_cache_stats (fun _ => 1)
           (CacheManager.set (fun s => s) 0 [] "a" "c").2).total_items) :=
  ⟨by decide,
   C1_expiry_lazy_eviction (fun s => s) (fun _ => 1) 24 0 25 [] "a" "c"
     (by decide)⟩

/-- C2: `get(a)` immediately after a successful `set(a, c)`, with less than
one TTL elapsed and no other intervening operation, returns exactly `c`. -/
theorem C2_roundtrip (md5Hex : String → String) (ttl t0 now : Int)
    (st : CacheState) (url content : String) (hfresh : now - t0 < ttl) :
    (CacheManager.set md5Hex t0 st url content).1 = true ∧
    (CacheManager.get md5Hex ttl now
        (CacheManager.set md5Hex t0 st url content).2 url).1 = some content := by
  have hnot : ¬ (now - t0 > ttl) := by omega
  exact ⟨rfl, by simp [CacheManager.get, CacheManager.set,
    lookupKey_setKey_self, hnot]⟩

/-- Witness for C2: write at time 0, read at time 1, `ttl = 24`. -/
theorem C2_roundtrip_witness :
    ((1 : Int) - 0 < 24) ∧
    ((CacheManager.set (fun s => s) 0 [] "a" "c").1 = true ∧
     (CacheManager.get (fun s => s) 24 1
        (CacheManager.set (fun s => s) 0 [] "a" "c").2 "a").1 = some "c") :=
  ⟨by decide, C2_roundtrip (fun s => s) 24 0 1 [] "a" "c" (by decide)⟩

/-- C6: `invalidate(a)` returns success, `get(a)` right after it is a miss
regardless of the prior cache state, and invalidating an address with no
stored entry leaves the state unchanged (no-op success). -/
theorem C6_invalidate_then_get_miss (md5Hex : String → String)
    (ttl now : Int) (st : CacheState) (url : String) :
    (CacheManager.invalidate md5Hex st url).1 = true ∧
    (CacheManager.get md5Hex ttl now
        (CacheManager.invalidate md5Hex st url).2 url).1 = none ∧
    (lookupKey (md5Hex url) st = none →
      (CacheManager.invalidate md5Hex st url).2 = st) := by
  refine ⟨rfl, ?_, ?_⟩
  · by_cases h : (lookupKey (md5Hex url) st).isSome
    · simp [CacheManager.invalidate, CacheManager.get, h,
        lookupKey_eraseKey_self]
    · have hn : lookupKey (md5Hex url) st = none := by
        cases hl : lookupKey (md5Hex url) st with
        | none => rfl
        | some e => simp [hl] at h
      simp [CacheManager.invalidate, CacheManager.get, h, hn]
  · intro hn
    simp [CacheManager.invalidate, hn]

/-- Witness for C6: a one-entry state under key `"k"`, invalidating the
address `"a"` (no entry), then a state with an entry for `"a"`. -/
theorem C6_invalidate_then_get_miss_witness :
    (CacheManager.invalidate (fun s => s) [("k", ⟨"k", "c", 0⟩)] "a").1 = true ∧
    (CacheManager.get (fun s => s) 24 1
        (CacheManager.invalidate (fun s => s)
          [("k", ⟨"k", "c", 0⟩)] "a").2 "a").1 = none ∧
    (lookupKey "a" ([("k", ⟨"k", "c", 0⟩)] : CacheState) = none →
      (CacheManager.invalidate (fun s => s)
        [("k", ⟨"k", "c", 0⟩)] "a").2 = [("k", ⟨"k", "c", 0⟩)]) :=
  C6_invalidate_then_get_miss (fun s => s) 24 1 [("k", ⟨"k", "c", 0⟩)] "a"

/-- C9: when the cache holds a valid (unexpired) entry for `url` whose
content is the empty string, `_fetch_url` does not return the cached value:
the truthiness test `if cached_content:` fails on `""`, so a fresh network
retrieval is performed — the result is exactly the network outcome, and a
successful response overwrites the cache entry. -/
theorem C9_empty_cached_content_refetch (md5Hex : String → String)
    (ttl now : Int) (net : String → Option String) (st : CacheState)
    (url : String) (e : CacheEntry)
    (hent : lookupKey (md5Hex url) st = some e)
    (hempty : e.content = "")
    (hvalid : ¬ (now - e.timestamp > ttl)) :
    DocScraper.fetch_url md5Hex ttl now net true st url
      = match net url with
        | none => (none, st)
        | some content =>
          (some content, setKey (md5Hex url) ⟨url, content, now⟩ st) := by
  cases hnet : net url with
  | none =>
    simp [DocScraper.fetch_url, CacheManager.get, CacheManager.set,
      hent, hempty, hvalid, hnet]
  | some content =>
    simp [DocScraper.fetch_url, CacheManager.get, CacheManager.set,
      hent, hempty, hvalid, hnet]

/-- Witness for C9: a valid empty-content entry for `"a"`, network returns
`"fresh"`; the fetch returns the network content and overwrites the
entry. -/
theorem C9_empty_cached_content_refetch_witness :
    lookupKey "a" ([("a", ⟨"a", "", 0⟩)] : CacheState) = some ⟨"a", "", 0⟩ ∧
    (⟨"a", "", 0⟩ : CacheEntry).content = "" ∧
    ¬ ((1 : Int) - (0 : Int) > 24) ∧
    DocScraper.fetch_url (fun s => s) 24 1 (fun _ => some "fresh") true
        [("a", ⟨"a", "", 0⟩)] "a"
      = (some "fresh", [("a", ⟨"a", "fresh", 1⟩)]) := by
  refine ⟨by decide, rfl, by decide, ?_⟩
  have h := C9_empty_cached_content_refetch (fun s => s) 24 1
    (fun _ => some "fresh") [("a", ⟨"a", "", 0⟩)] "a" ⟨"a", "", 0⟩
    (by decide) rfl (by decide)
  simpa [setKey, eraseKey] using h

/-!
Lemmas about the whitespace-collapsing text extraction.
-/

/-- Unfolding of `wordGroups` on a cons. -/
theorem wordGroups_cons (c : Char) (cs : List Char) :
    wordGroups (c :: cs)
      = if c.isWhitespace then [] :: wordGroups cs
        else
          match wordGroups cs with
          | [] => [[c]]
          | w :: ws => (c :: w) :: ws := rfl

/-- Every character inside any group produced by `wordGroups` is
non-whitespace: only the `else` branch ever adds a character. -/
theorem wordGroups_no_whitespace (l : List Char) :
    ∀ g ∈ wordGroups l, ∀ c ∈ g, ¬ c.isWhitespace = true := by
  induction l with
  | nil => intro g hg; simp [wordGroups] at hg
  | cons c' cs ih =>
    intro g hg c hc
    rw [wordGroups_cons] at hg
    by_cases hws : c'.isWhitespace
    · simp [hws] at hg
      rcases hg with hg | hg
      · subst hg; simp at hc
      · exact ih g hg c hc
    · simp [hws] at hg
      cases hgs : wordGroups cs with
      | nil =>
        rw [hgs] at hg
        simp at hg
        subst hg
        simp at hc
        subst hc
        exact hws
      | cons w ws =>
        rw [hgs] at hg
        simp at hg
        rcases hg with hg | hg
        · subst hg
          simp at hc
          rcases hc with hc | hc
          · subst hc; exact hws
          · exact ih w (by simp [hgs]) c hc
        · exact ih g (by simp [hgs, hg]) c hc

/-- Every word produced by Python `split()` is nonempty and contains no
whitespace character. -/
theorem pyWords_good (l : List Char) :
    ∀ g ∈ pyWords l, g ≠ [] ∧ ∀ c ∈ g, ¬ c.isWhitespace = true := by
  intro g hg
  have hmem : g ∈ wordGroups l ∧ g ≠ [] := by
    simpa [pyWords, List.mem_filter] using hg
  exact ⟨hmem.2, wordGroups_no_whitespace l g hmem.1⟩

/-- Any character of a space-joined list is either the separator `' '` or a
character of one of the groups. -/
theorem mem_joinSep (gs : List (List Char)) (c : Char) (hc : c ∈ joinSep gs) :
    c = ' ' ∨ ∃ g ∈ gs, c ∈ g := by
  induction gs with
  | nil => simp [joinSep] at hc
  | cons g gs ih =>
    cases gs with
    | nil =>
      simp [joinSep] at hc
      exact Or.inr ⟨g, by simp, hc⟩
    | cons g' gs' =>
      simp only [joinSep, List.mem_append, List.mem_cons] at hc
      rcases hc with hc | hc | hc
      · exact Or.inr ⟨g, by simp, hc⟩
      · exact Or.inl hc
      · rcases ih hc with h | ⟨g'', hg'', hcg⟩
        · exact Or.inl h
        · exact Or.inr ⟨g'', by simp [List.mem_cons] at hg'' ⊢; tauto, hcg⟩

/-- Head of a space-joined list of groups whose first group is nonempty. -/
theorem joinSep_head? (g : List Char) (gs : List (List Char)) (hg : g ≠ []) :
    (joinSep (g :: gs)).head? = g.head? := by
  cases gs with
  | nil => rfl
  | cons g' gs' =>
    cases g with
    | nil => exact absurd rfl hg
    | cons a t => rfl

/-- A list whose characters are all different from `' '` has no adjacent
pair of spaces. -/
theorem chain'_of_no_space (g : List Char) (h : ∀ c ∈ g, ¬ c = ' ') :
    List.Chain' (fun a b => ¬ (a = ' ' ∧ b = ' ')) g := by
  induction g with
  | nil => exact List.chain'_nil
  | cons a t ih =>
    rw [List.chain'_cons']
    refine ⟨fun y _ hy => absurd hy.1 (h a (by simp)), ?_⟩
    exact ih (fun c hc => h c (by simp [hc]))

/-- Joining nonempty whitespace-free groups with single spaces yields a
string with no two adjacent spaces. -/
theorem joinSep_chain' (gs : List (List Char))
    (h : ∀ g ∈ gs, g ≠ [] ∧ ∀ c ∈ g, ¬ c.isWhitespace = true) :
    List.Chain' (fun a b => ¬ (a = ' ' ∧ b = ' ')) (joinSep gs) := by
  induction gs with
  | nil => exact List.chain'_nil
  | cons g gs ih =>
    have hgood := h g (by simp)
    have hnospace : ∀ c ∈ g, ¬ c = ' ' := by
      intro c hc hceq
      exact hgood.2 c hc (by simp [hceq])
    cases gs with
    | nil =>
      simpa [joinSep] using chain'_of_no_space g hnospace
    | cons g' gs' =>
      have hg'good := h g' (by simp)
      have hrest : List.Chain' (fun a b => ¬ (a = ' ' ∧ b = ' '))
          (joinSep (g' :: gs')) :=
        ih (fun g'' hg'' => h g'' (by simp [List.mem_cons] at hg'' ⊢; tauto))
      have hcons : List.Chain' (fun a b => ¬ (a = ' ' ∧ b = ' '))
          (' ' :: joinSep (g' :: gs')) := by
        rw [List.chain'_cons']
        refine ⟨?_, hrest⟩
        intro y hy hpair
        rw [joinSep_head? g' gs' hg'good.1] at hy
        have hy' : y ∈ g' := List.mem_of_mem_head? hy
        exact hg'good.2 y hy' (by simp [hpair.2])
      show List.Chain' _ (g ++ ' ' :: joinSep (g' :: gs'))
      refine List.Chain'.append (chain'_of_no_space g hnospace) hcons ?_
      intro x hx y _ hpair
      have hxg : x ∈ g := by
        rcases List.mem_getLast?_eq_getLast hx with ⟨hne, hxeq⟩
        subst hxeq
        exact List.getLast_mem hne
      exact hnospace x hxg hpair.1

/-- Every character of `pyCollapse l` that is whitespace is the single
space, and no two adjacent characters are both spaces. -/
theorem pyCollapse_collapsed (l : List Char) :
    (∀ c ∈ pyCollapse l, c.isWhitespace = true → c = ' ') ∧
    List.Chain' (fun a b => ¬ (a = ' ' ∧ b = ' ')) (pyCollapse l) := by
  constructor
  · intro c hc hws
    rcases mem_joinSep (pyWords l) c hc with h | ⟨g, hg, hcg⟩
    · exact h
    · exact absurd hws ((pyWords_good l g hg).2 c hcg)
  · exact joinSep_chain' (pyWords l) (pyWords_good l)

/-- The markup of the spec's extraction example. -/
def c4Markup : String := "<script>dangerous()</script><p>Hello   world</p>"

/-- The parse of `c4Markup`: a script element followed by a paragraph. -/
def c4Forest : HtmlForest :=
  HtmlForest.ofList
    [ Html.elem "script" (HtmlForest.ofList [Html.text ("dangerous()".data)])
    , Html.elem "p" (HtmlForest.ofList [Html.text ("Hello   world".data)]) ]

/-- A concrete parser recognising exactly the example markup. -/
def parseC4 : String → Option HtmlForest := fun s =>
  if s = c4Markup then some c4Forest else none

/-- C4: text extraction discards script/style/nav/footer/header elements
(removing such an element, subtree included, never changes the extracted
characters), collapses all whitespace — every whitespace character of the
output is a single space and no two adjacent output characters are both
spaces — and on the markup
`<script>dangerous()</script><p>Hello   world</p>` yields exactly
`"Hello world"`. -/
theorem C4_text_extraction :
    (∀ t cs rest, t ∈ bannedTags →
      extractChars (HtmlForest.cons (Html.elem t cs) rest)
        = extractChars rest) ∧
    (∀ (parse : String → Option HtmlForest) (html : String) (mc : Nat),
      (∀ c ∈ (extract_text_from_html parse html mc).data,
        c.isWhitespace = true → c = ' ') ∧
      List.Chain' (fun a b => ¬ (a = ' ' ∧ b = ' '))
        (extract_text_from_html parse html mc).data) ∧
    (∀ parse : String → Option HtmlForest,
      parse c4Markup = some c4Forest →
      extract_text_from_html parse c4Markup 5000 = "Hello world") := by
  refine ⟨?_, ?_, ?_⟩
  · intro t cs rest ht
    simp [extractChars, decomposeForest, ht]
  · intro parse html mc
    cases hp : parse html with
    | none => simp [extract_text_from_html, hp]
    | some f =>
      constructor
      · intro c hc hws
        simp only [extract_text_from_html, hp] at hc
        have hc' : c ∈ extractChars f :=
          (List.take_sublist mc (extractChars f)).subset hc
        exact (pyCollapse_collapsed (getText (decomposeForest f))).1 c hc' hws
      · simp only [extract_text_from_html, hp]
        exact List.Chain'.take
          (pyCollapse_collapsed (getText (decomposeForest f))).2 mc
  · intro parse hp
    simp only [extract_text_from_html, hp]
    decide

/-- Witness for C4: the banned-tag discard at `script`, and the concrete
example evaluated with the concrete parser `parseC4`. -/
theorem C4_text_extraction_witness :
    ("script" ∈ bannedTags ∧
      extractChars
          (HtmlForest.cons
            (Html.elem "script" (HtmlForest.cons (Html.text ("x".data))
              HtmlForest.nil))
            HtmlForest.nil)
        = extractChars HtmlForest.nil) ∧
    (parseC4 c4Markup = some c4Forest ∧
      extract_text_from_html parseC4 c4Markup 5000 = "Hello world") :=
  ⟨⟨by decide,
    C4_text_extraction.1 "script"
      (HtmlForest.cons (Html.text ("x".data)) HtmlForest.nil) HtmlForest.nil
      (by decide)⟩,
   ⟨by simp [parseC4], C4_text_extraction.2.2 parseC4 (by simp [parseC4])⟩⟩

/-!
Lemmas about the supplementary-section loop of `build_context_summary`.
-/

/-- When the section loop completes without raising, it yields exactly one
section per resource. -/
theorem eduSectionsFrom_length (rs : List ScrapedDoc) :
    ∀ i l, DocScraper.eduSectionsFrom i rs = some l → l.length = rs.length := by
  induction rs with
  | nil =>
    intro i l h
    simp [DocScraper.eduSectionsFrom] at h
    simp [← h]
  | cons r rs ih =>
    intro i l h
    simp only [DocScraper.eduSectionsFrom] at h
    cases hs : DocScraper.eduSection i r with
    | none => rw [hs] at h; exact absurd h (by simp)
    | some s =>
      rw [hs] at h
      cases ht : DocScraper.eduSectionsFrom (i + 1) rs with
      | none => rw [ht] at h; exact absurd h (by simp)
      | some tail =>
        rw [ht] at h
        simp at h
        rw [← h]
        simp [ih (i + 1) tail ht]

/-- When the section loop completes, the `j`-th produced section is the
section of the `j`-th resource, numbered from `i`. -/
theorem eduSectionsFrom_get (rs : List ScrapedDoc) :
    ∀ i l, DocScraper.eduSectionsFrom i rs = some l →
      ∀ j (hj : j < rs.length), ∃ hl : j < l.length,
        DocScraper.eduSection (i + j) (rs.get ⟨j, hj⟩)
          = some (l.get ⟨j, hl⟩) := by
  induction rs with
  | nil => intro i l _ j hj; exact absurd hj (by simp)
  | cons r rs ih =>
    intro i l h j hj
    simp only [DocScraper.eduSectionsFrom] at h
    cases hs : DocScraper.eduSection i r with
    | none => rw [hs] at h; exact absurd h (by simp)
    | some s =>
      rw [hs] at h
      cases ht : DocScraper.eduSectionsFrom (i + 1) rs with
      | none => rw [ht] at h; exact absurd h (by simp)
      | some tail =>
        rw [ht] at h
        simp at h
        subst h
        cases j with
        | zero => exact ⟨by simp, by simpa using hs⟩
        | succ j' =>
          have hj' : j' < rs.length := by simpa using hj
          rcases ih (i + 1) tail ht j' hj' with ⟨hl, hget⟩
          refine ⟨by simpa using Nat.succ_lt_succ hl, ?_⟩
          have : i + (j' + 1) = i + 1 + j' := by omega
          rw [this]
          simpa using hget

/-- Getting inside a `take` is getting in the original list. -/
theorem get_take_eq {α : Type} (l : List α) (n j : Nat)
    (h1 : j < (l.take n).length) (h2 : j < l.length) :
    (l.take n).get ⟨j, h1⟩ = l.get ⟨j, h2⟩ := by
  simp [List.get_eq_getElem, List.getElem_take]

/-- C5: when more than 8 supplementary sources succeeded, the summary
builds sections from `educational_resources[:8]` only — the produced
section list has length exactly 8, its `j`-th section is the section of the
`j`-th resource (numbered from 1) in original list order, and resources
beyond the first 8 cannot affect the output. -/
theorem C5_supplementary_cap (rs : List ScrapedDoc) (h8 : 8 < rs.length) :
    DocScraper.eduSectionsOpt rs = DocScraper.eduSectionsOpt (rs.take 8) ∧
    ∀ l, DocScraper.eduSectionsOpt rs = some l →
      l.length = 8 ∧
      ∀ j (hj : j < 8), ∃ hl : j < l.length,
        DocScraper.eduSection (1 + j) (rs.get ⟨j, by omega⟩)
          = some (l.get ⟨j, hl⟩) := by
  constructor
  · simp [DocScraper.eduSectionsOpt, List.take_take]
  · intro l hl
    have htl : (rs.take 8).length = 8 := by
      simp [List.length_take]
      omega
    have hlen := eduSectionsFrom_length (rs.take 8) 1 l hl
    constructor
    · rw [hlen, htl]
    · intro j hj
      have hj8 : j < (rs.take 8).length := by omega
      rcases eduSectionsFrom_get (rs.take 8) 1 l hl j hj8 with ⟨hjl, hget⟩
      refine ⟨hjl, ?_⟩
      rwa [get_take_eq rs 8 j hj8 (by omega)] at hget

/-- Witness for C5: nine one-character resources; the section list has
length 8 and its first entry is the section of the first resource. -/
theorem C5_supplementary_cap_witness :
    (8 < (List.replicate 9 (⟨"u", some "t", "c"⟩ : ScrapedDoc)).length) ∧
    DocScraper.eduSectionsOpt
        (List.replicate 9 (⟨"u", some "t", "c"⟩ : ScrapedDoc))
      = DocScraper.eduSectionsOpt
          ((List.replicate 9 (⟨"u", some "t", "c"⟩ : ScrapedDoc)).take 8) ∧
    ∀ l, DocScraper.eduSectionsOpt
        (List.replicate 9 (⟨"u", some "t", "c"⟩ : ScrapedDoc)) = some l →
      l.length = 8 := by
  have h := C5_supplementary_cap
    (List.replicate 9 (⟨"u", some "t", "c"⟩ : ScrapedDoc)) (by decide)
  exact ⟨by decide, h.1, fun l hl => (h.2 l hl).1⟩

/-- Extraction never exceeds its character budget. -/
theorem extract_text_from_html_length (parse : String → Option HtmlForest)
    (html : String) (mc : Nat) :
    (extract_text_from_html parse html mc).length ≤ mc := by
  cases hp : parse html with
  | none => simp [extract_text_from_html, hp, String.length]
  | some f =>
    simp only [extract_text_from_html, hp]
    exact List.length_take_le mc (extractChars f)

/-- The `pyTake` slice is idempotent and bounded. -/
theorem pyTake_length_le (n : Nat) (s : String) : (pyTake n s).length ≤ n :=
  List.length_take_le n s.data

/-- A document produced by `scrapePage` carries content extracted under the
3000-character budget. -/
theorem scrapePage_content_le (md5Hex : String → String) (ttl now : Int)
    (net : String → Option String) (parse : String → Option HtmlForest)
    (st : CacheState) (url dt : String) (d : ScrapedDoc) (st2 : CacheState)
    (h : DocScraper.scrapePage md5Hex ttl now net parse st url dt
          = (some d, st2)) :
    d.content.length ≤ 3000 := by
  cases hf : DocScraper.fetch_url md5Hex ttl now net true st url with
  | mk res st1 =>
    cases res with
    | none => simp [DocScraper.scrapePage, hf] at h
    | some html =>
      by_cases hh : html = ""
      · simp [DocScraper.scrapePage, hf, hh] at h
      · cases hp : parse html with
        | none => simp [DocScraper.scrapePage, hf, hh, hp] at h
        | some f =>
          simp [DocScraper.scrapePage, hf, hh, hp] at h
          rw [← h.1]
          exact extract_text_from_html_length parse html 3000

/-- Every resource produced by `scrape_educational_resources` carries
content extracted under the 2000-character budget. -/
theorem scrapeResources_content_le (md5Hex : String → String) (ttl now : Int)
    (net : String → Option String) (parse : String → Option HtmlForest) :
    ∀ (urls : List String) (st : CacheState) (r : ScrapedDoc),
      r ∈ (DocScraper.scrapeResources md5Hex ttl now net parse urls st).1 →
      r.content.length ≤ 2000 := by
  intro urls
  induction urls with
  | nil => intro st r hr; simp [DocScraper.scrapeResources] at hr
  | cons url rest ih =>
    intro st r hr
    cases hf : DocScraper.fetch_url md5Hex ttl now net true st url with
    | mk res st1 =>
      cases res with
      | none =>
        rw [DocScraper.scrapeResources, hf] at hr
        exact ih st1 r hr
      | some html =>
        by_cases hh : html = ""
        · rw [DocScraper.scrapeResources, hf] at hr
          simp only [hh, if_pos rfl] at hr
          exact ih st1 r hr
        · cases hp : parse html with
          | none =>
            rw [DocScraper.scrapeResources, hf] at hr
            simp only [if_neg hh, hp] at hr
            exact ih st1 r hr
          | some f =>
            rw [DocScraper.scrapeResources, hf] at hr
            simp only [if_neg hh, hp] at hr
            simp at hr
            rcases hr with hr | hr
            · rw [hr]
              exact extract_text_from_html_length parse html 2000
            · exact ih st1 r hr

/-- C10: the summary builder applies a second, tighter truncation on top of
the extraction budgets — each primary section depends only on the first 800
characters of its content and embeds at most 800 of them (although primary
pages are extracted with a 3000-character budget), each supplementary
section depends only on the first 60 characters of its title and the first
600 characters of its content and embeds at most those amounts (although
supplementary pages are extracted with a 2000-character budget). -/
theorem C10_summary_truncation :
    (∀ d : ScrapedDoc,
      DocScraper.dartSectionStr d
        = DocScraper.dartSectionStr ⟨d.url, d.title, pyTake 800 d.content⟩ ∧
      (pyTake 800 d.content).length ≤ 800) ∧
    (∀ d : ScrapedDoc,
      DocScraper.flutterSectionStr d
        = DocScraper.flutterSectionStr ⟨d.url, d.title, pyTake 800 d.content⟩ ∧
      (pyTake 800 d.content).length ≤ 800) ∧
    (∀ (i : Nat) (t : String) (r : ScrapedDoc),
      DocScraper.eduSectionStr i t r
        = DocScraper.eduSectionStr i (pyTake 60 t)
            ⟨r.url, r.title, pyTake 600 r.content⟩ ∧
      (pyTake 60 t).length ≤ 60 ∧ (pyTake 600 r.content).length ≤ 600) ∧
    (∀ (md5Hex : String → String) (ttl now : Int)
        (net : String → Option String) (parse : String → Option HtmlForest)
        (st : CacheState) (url dt : String) (d : ScrapedDoc)
        (st2 : CacheState),
      DocScraper.scrapePage md5Hex ttl now net parse st url dt
          = (some d, st2) →
      d.content.length ≤ 3000) ∧
    (∀ (md5Hex : String → String) (ttl now : Int)
        (net : String → Option String) (parse : String → Option HtmlForest)
        (urls : List String) (st : CacheState) (r : ScrapedDoc),
      r ∈ (DocScraper.scrapeResources md5Hex ttl now net parse urls st).1 →
      r.content.length ≤ 2000) := by
  refine ⟨?_, ?_, ?_, ?_, ?_⟩
  · intro d
    exact ⟨by simp [DocScraper.dartSectionStr, pyTake, List.take_take],
      pyTake_length_le 800 d.content⟩
  · intro d
    exact ⟨by simp [DocScraper.flutterSectionStr, pyTake, List.take_take],
      pyTake_length_le 800 d.content⟩
  · intro i t r
    exact ⟨by simp [DocScraper.eduSectionStr, pyTake, List.take_take],
      pyTake_length_le 60 t, pyTake_length_le 600 r.content⟩
  · intro md5Hex ttl now net parse st url dt d st2 h
    exact scrapePage_content_le md5Hex ttl now net parse st url dt d st2 h
  · intro md5Hex ttl now net parse urls st r hr
    exact scrapeResources_content_le md5Hex ttl now net parse urls st r hr

/-- A tiny concrete page used by witnesses. -/
def pageHi : String := "<p>hi</p>"

/-- The parse of `pageHi`. -/
def forestHi : HtmlForest :=
  HtmlForest.ofList [Html.elem "p" (HtmlForest.ofList [Html.text ("hi".data)])]

/-- A concrete parser recognising exactly `pageHi`. -/
def parseHi : String → Option HtmlForest := fun s =>
  if s = pageHi then some forestHi else none

/-- A concrete network returning `pageHi` for every address. -/
def netHi : String → Option String := fun _ => some pageHi

/-- Witness for C10: a concrete `scrapePage` run and a concrete
`scrape_educational_resources` run, with the content bounds discharged by
the theorem, plus the truncation facts at a concrete oversized input. -/
theorem C10_summary_truncation_witness :
    (DocScraper.scrapePage (fun s => s) 24 0 netHi parseHi [] "u" "T").1
        = some ⟨"u", some "T", "hi"⟩ ∧
    (⟨"u", some "T", "hi"⟩ : ScrapedDoc).content.length ≤ 3000 ∧
    (⟨"u", some "u", "hi"⟩ : ScrapedDoc)
        ∈ (DocScraper.scrapeResources (fun s => s) 24 0 netHi parseHi
            ["u"] []).1 ∧
    (⟨"u", some "u", "hi"⟩ : ScrapedDoc).content.length ≤ 2000 := by
  have h1 : DocScraper.scrapePage (fun s => s) 24 0 netHi parseHi [] "u" "T"
      = (some ⟨"u", some "T", "hi"⟩, [("u", ⟨"u", pageHi, 0⟩)]) := by decide
  have h2 : (⟨"u", some "u", "hi"⟩ : ScrapedDoc)
      ∈ (DocScraper.scrapeResources (fun s => s) 24 0 netHi parseHi
          ["u"] []).1 := by decide
  refine ⟨by rw [h1], ?_, h2, ?_⟩
  · exact C10_summary_truncation.2.2.2.1 (fun s => s) 24 0 netHi parseHi []
      "u" "T" ⟨"u", some "T", "hi"⟩ [("u", ⟨"u", pageHi, 0⟩)] h1
  · exact C10_summary_truncation.2.2.2.2 (fun s => s) 24 0 netHi parseHi
      ["u"] [] ⟨"u", some "u", "hi"⟩ h2

/-!
Claims about the full-run aggregation (C3, C7, C8).
-/

/-- C3 counterexample descriptor list: ten sources, of which source #2
always fails. -/
def urlsC3 : List String :=
  ["c1", "c2", "c3", "c4", "c5", "c6", "c7", "c8", "c9", "c10"]

/-- C3 counterexample network: a simulated network error for `"c2"`, the
tiny page for the other nine descriptors, failure elsewhere (so the two
primary pages fail too). -/
def netC3 : String → Option String := fun u =>
  if u = "c2" then none
  else if urlsC3.contains u then some pageHi
  else none

/-- The documentation produced by the C3 counterexample run. -/
def docsC3 : DocScraper.Documentation :=
  (DocScraper.get_all_documentation (fun s => s) 24 0 netC3 parseHi
    urlsC3 []).1

/-- Counterexample to C3 as stated: in a run where source #2 fails and the
other nine succeed, the aggregation yields sections for only the first
eight succeeding sources — the succeeding source `"c10"` gets no section,
so the context does not contain a labeled section for every succeeding
source. -/
theorem C3_counterexample :
    docsC3.educational_resources
      = [ ⟨"c1", some "c1", "hi"⟩, ⟨"c3", some "c3", "hi"⟩
        , ⟨"c4", some "c4", "hi"⟩, ⟨"c5", some "c5", "hi"⟩
        , ⟨"c6", some "c6", "hi"⟩, ⟨"c7", some "c7", "hi"⟩
        , ⟨"c8", some "c8", "hi"⟩, ⟨"c9", some "c9", "hi"⟩
        , ⟨"c10", some "c10", "hi"⟩ ] ∧
    DocScraper.buildParts docsC3
      = some
        [ DocScraper.headerStr, DocScraper.eduHeaderStr
        , DocScraper.eduSectionStr 1 "c1" ⟨"c1", some "c1", "hi"⟩
        , DocScraper.eduSectionStr 2 "c3" ⟨"c3", some "c3", "hi"⟩
        , DocScraper.eduSectionStr 3 "c4" ⟨"c4", some "c4", "hi"⟩
        , DocScraper.eduSectionStr 4 "c5" ⟨"c5", some "c5", "hi"⟩
        , DocScraper.eduSectionStr 5 "c6" ⟨"c6", some "c6", "hi"⟩
        , DocScraper.eduSectionStr 6 "c7" ⟨"c7", some "c7", "hi"⟩
        , DocScraper.eduSectionStr 7 "c8" ⟨"c8", some "c8", "hi"⟩
        , DocScraper.eduSectionStr 8 "c9" ⟨"c9", some "c9", "hi"⟩ ] := by
  constructor
  · decide
  · decide

/-- C3 amended: over any descriptor list, a failed source fetch is skipped
— it contributes nothing (no placeholder) and processing of the remaining
sources continues unchanged; a source whose page is empty or unparseable is
likewise skipped; a succeeding source contributes exactly one result, in
list position; and whenever at most 8 sources succeed the summary loop
produces exactly one labeled section per succeeding source, in their
original order (the run is a total function — it never raises for a source
failure). -/
theorem C3_amended_partial_failure (md5Hex : String → String) (ttl now : Int)
    (net : String → Option String) (parse : String → Option HtmlForest) :
    (∀ (st : CacheState) (u : String) (rest : List String),
      (DocScraper.fetch_url md5Hex ttl now net true st u).1 = none →
      DocScraper.scrapeResources md5Hex ttl now net parse (u :: rest) st
        = DocScraper.scrapeResources md5Hex ttl now net parse rest
            (DocScraper.fetch_url md5Hex ttl now net true st u).2) ∧
    (∀ (st : CacheState) (u : String) (rest : List String) (h : String),
      (DocScraper.fetch_url md5Hex ttl now net true st u).1 = some h →
      (h = "" ∨ parse h = none) →
      DocScraper.scrapeResources md5Hex ttl now net parse (u :: rest) st
        = DocScraper.scrapeResources md5Hex ttl now net parse rest
            (DocScraper.fetch_url md5Hex ttl now net true st u).2) ∧
    (∀ (st : CacheState) (u : String) (rest : List String) (h : String)
        (f : HtmlForest),
      (DocScraper.fetch_url md5Hex ttl now net true st u).1 = some h →
      h ≠ "" → parse h = some f →
      (DocScraper.scrapeResources md5Hex ttl now net parse (u :: rest) st).1
        = ⟨u, pageTitle f u, extract_text_from_html parse h 2000⟩
            :: (DocScraper.scrapeResources md5Hex ttl now net parse rest
                 (DocScraper.fetch_url md5Hex ttl now net true st u).2).1) ∧
    (∀ (rs : List ScrapedDoc), rs.length ≤ 8 →
      ∀ l, DocScraper.eduSectionsOpt rs = some l →
        l.length = rs.length ∧
        ∀ j (hj : j < rs.length), ∃ hl : j < l.length,
          DocScraper.eduSection (1 + j) (rs.get ⟨j, hj⟩)
            = some (l.get ⟨j, hl⟩)) := by
  refine ⟨?_, ?_, ?_, ?_⟩
  · intro st u rest hfail
    cases hf : DocScraper.fetch_url md5Hex ttl now net true st u with
    | mk res st1 =>
      rw [hf] at hfail
      simp at hfail
      subst hfail
      rw [DocScraper.scrapeResources, hf]
  · intro st u rest h hsucc hbad
    cases hf : DocScraper.fetch_url md5Hex ttl now net true st u with
    | mk res st1 =>
      rw [hf] at hsucc
      simp at hsucc
      subst hsucc
      rcases hbad with hb | hb
      · rw [DocScraper.scrapeResources, hf]
        simp [hb]
      · rw [DocScraper.scrapeResources, hf]
        by_cases hh : h = ""
        · simp [hh]
        · simp [hh, hb]
  · intro st u rest h f hsucc hne hp
    cases hf : DocScraper.fetch_url md5Hex ttl now net true st u with
    | mk res st1 =>
      rw [hf] at hsucc
      simp at hsucc
      subst hsucc
      rw [DocScraper.scrapeResources, hf]
      simp [hne, hp]
  · intro rs hle l hl
    have htake : rs.take 8 = rs := List.take_of_length_le hle
    rw [DocScraper.eduSectionsOpt, htake] at hl
    refine ⟨eduSectionsFrom_length rs 1 l hl, ?_⟩
    intro j hj
    exact eduSectionsFrom_get rs 1 l hl j hj

/-- Witness for C3's amended statement: the spec's three-source example —
source #2 fails, #1 and #3 succeed — produces exactly the results for #1
and #3 in order, and their two labeled sections. -/
theorem C3_amended_partial_failure_witness :
    (DocScraper.fetch_url (fun s => s) 24 0 netC3 true [] "c2").1 = none ∧
    DocScraper.scrapeResources (fun s => s) 24 0 netC3 parseHi
        ["c2", "c3"] []
      = DocScraper.scrapeResources (fun s => s) 24 0 netC3 parseHi ["c3"]
          (DocScraper.fetch_url (fun s => s) 24 0 netC3 true [] "c2").2 ∧
    (DocScraper.scrapeResources (fun s => s) 24 0 netC3 parseHi
        ["c1", "c2", "c3"] []).1
      = [⟨"c1", some "c1", "hi"⟩, ⟨"c3", some "c3", "hi"⟩] ∧
    DocScraper.eduSectionsOpt
        [(⟨"c1", some "c1", "hi"⟩ : ScrapedDoc), ⟨"c3", some "c3", "hi"⟩]
      = some
        [ DocScraper.eduSectionStr 1 "c1" ⟨"c1", some "c1", "hi"⟩
        , DocScraper.eduSectionStr 2 "c3" ⟨"c3", some "c3", "hi"⟩ ] := by
  refine ⟨by decide, ?_, by decide, by decide⟩
  exact (C3_amended_partial_failure (fun s => s) 24 0 netC3 parseHi).1
    [] "c2" ["c3"] (by decide)

/-- A network on which every request fails. -/
def netNone : String → Option String := fun _ => none

/-- Counterexample to C7 as stated: with an empty descriptor list the run
is not aborted — `get_all_documentation` completes and
`build_context_summary` produces the header-only context (here with both
primary fetches failing as well). -/
theorem C7_counterexample :
    DocScraper.build_context_summary
        ((DocScraper.get_all_documentation (fun s => s) 24 0 netNone parseHi
          [] []).1)
      = some DocScraper.headerStr := by decide

/-- C7 amended: the aggregation never raises for individual source
failures — a failed fetch is skipped and the remaining sources are still
processed — and an empty descriptor list is not fatal either: the run
completes and the summary is produced (it is `some` value, the fixed
header plus any primary sections). -/
theorem C7_amended_no_fatal_empty_list :
    (∀ (md5Hex : String → String) (ttl now : Int)
        (net : String → Option String) (parse : String → Option HtmlForest)
        (st : CacheState),
      ∃ s, DocScraper.build_context_summary
          ((DocScraper.get_all_documentation md5Hex ttl now net parse
            [] st).1) = some s) ∧
    (∀ (md5Hex : String → String) (ttl now : Int)
        (net : String → Option String) (parse : String → Option HtmlForest)
        (st : CacheState) (u : String) (rest : List String),
      (DocScraper.fetch_url md5Hex ttl now net true st u).1 = none →
      (DocScraper.scrapeResources md5Hex ttl now net parse (u :: rest) st).1
        = (DocScraper.scrapeResources md5Hex ttl now net parse rest
            (DocScraper.fetch_url md5Hex ttl now net true st u).2).1) := by
  constructor
  · intro md5Hex ttl now net parse st
    simp only [DocScraper.get_all_documentation, DocScraper.scrapeResources,
      DocScraper.build_context_summary, DocScraper.buildParts]
    simp
  · intro md5Hex ttl now net parse st u rest hfail
    cases hf : DocScraper.fetch_url md5Hex ttl now net true st u with
    | mk res st1 =>
      rw [hf] at hfail
      simp at hfail
      subst hfail
      rw [DocScraper.scrapeResources, hf]

/-- Witness for C7's amended statement: the all-failing network over the
empty descriptor list, and a failing source followed by a succeeding
one. -/
theorem C7_amended_no_fatal_empty_list_witness :
    (∃ s, DocScraper.build_context_summary
        ((DocScraper.get_all_documentation (fun s => s) 24 0 netNone parseHi
          [] []).1) = some s) ∧
    ((DocScraper.fetch_url (fun s => s) 24 0 netC3 true [] "c2").1 = none ∧
     (DocScraper.scrapeResources (fun s => s) 24 0 netC3 parseHi
        ["c2", "c1"] []).1
       = (DocScraper.scrapeResources (fun s => s) 24 0 netC3 parseHi ["c1"]
           (DocScraper.fetch_url (fun s => s) 24 0 netC3 true [] "c2").2).1) :=
  ⟨C7_amended_no_fatal_empty_list.1 (fun s => s) 24 0 netNone parseHi [],
   by decide,
   C7_amended_no_fatal_empty_list.2 (fun s => s) 24 0 netC3 parseHi []
     "c2" ["c1"] (by decide)⟩

/-- A page whose whole content sits in a script tag: extraction yields the
empty string. -/
def pageScript : String := "<script>x</script>"

/-- The parse of `pageScript`. -/
def forestScript : HtmlForest :=
  HtmlForest.ofList
    [Html.elem "script" (HtmlForest.ofList [Html.text ("x".data)])]

/-- A concrete parser recognising exactly `pageScript`. -/
def parseScript : String → Option HtmlForest := fun s =>
  if s = pageScript then some forestScript else none

/-- A network serving `pageScript` for the address `"u"` only. -/
def netOnlyU : String → Option String := fun u =>
  if u = "u" then some pageScript else none

/-- The documentation produced by the C8 counterexample run. -/
def docsC8 : DocScraper.Documentation :=
  (DocScraper.get_all_documentation (fun s => s) 24 0 netOnlyU parseScript
    ["u"] []).1

/-- Counterexample to C8 as stated: the source `"u"` is fetched
successfully but its markup is a lone script tag, so its extracted text is
the empty string — yet the aggregated context still contains a labeled
section for it (with an empty body). -/
theorem C8_counterexample :
    docsC8.educational_resources = [⟨"u", some "u", ""⟩] ∧
    DocScraper.buildParts docsC8
      = some
        [ DocScraper.headerStr, DocScraper.eduHeaderStr
        , DocScraper.eduSectionStr 1 "u" ⟨"u", some "u", ""⟩ ] := by
  constructor
  · decide
  · decide

/-- C8 amended: a source whose fetch succeeds with nonempty parseable
markup always contributes exactly one result — with no condition on the
extracted text, which may be empty — and the summary loop emits exactly
one labeled section per resource it covers, contentless or not; only a
source whose fetch fails (or whose page is empty or unparseable)
contributes no section. -/
theorem C8_amended_empty_extraction_section (md5Hex : String → String)
    (ttl now : Int) (net : String → Option String)
    (parse : String → Option HtmlForest) :
    (∀ (st : CacheState) (u : String) (rest : List String) (h : String)
        (f : HtmlForest),
      (DocScraper.fetch_url md5Hex ttl now net true st u).1 = some h →
      h ≠ "" → parse h = some f →
      (DocScraper.scrapeResources md5Hex ttl now net parse (u :: rest) st).1
        = ⟨u, pageTitle f u, extract_text_from_html parse h 2000⟩
            :: (DocScraper.scrapeResources md5Hex ttl now net parse rest
                 (DocScraper.fetch_url md5Hex ttl now net true st u).2).1) ∧
    (∀ (i : Nat) (rs : List ScrapedDoc) (l : List String),
      DocScraper.eduSectionsFrom i rs = some l → l.length = rs.length) ∧
    (∀ (i : Nat) (u t c : String),
      DocScraper.eduSection i ⟨u, some t, c⟩
        = some (DocScraper.eduSectionStr i t ⟨u, some t, c⟩)) := by
  refine ⟨?_, ?_, ?_⟩
  · intro st u rest h f hsucc hne hp
    cases hf : DocScraper.fetch_url md5Hex ttl now net true st u with
    | mk res st1 =>
      rw [hf] at hsucc
      simp at hsucc
      subst hsucc
      rw [DocScraper.scrapeResources, hf]
      simp [hne, hp]
  · intro i rs l hl
    exact eduSectionsFrom_length rs i l hl
  · intro i u t c
    simp [DocScraper.eduSection]

/-- Witness for C8's amended statement: the lone-script page is fetched and
parsed, its extraction is empty, and it still yields a result and a
section. -/
theorem C8_amended_empty_extraction_section_witness :
    ((DocScraper.fetch_url (fun s => s) 24 0 netOnlyU true [] "u").1
        = some pageScript ∧
      pageScript ≠ "" ∧ parseScript pageScript = some forestScript) ∧
    (DocScraper.scrapeResources (fun s => s) 24 0 netOnlyU parseScript
        ["u"] []).1
      = ⟨"u", pageTitle forestScript "u",
          extract_text_from_html parseScript pageScript 2000⟩
          :: (DocScraper.scrapeResources (fun s => s) 24 0 netOnlyU
               parseScript []
               (DocScraper.fetch_url (fun s => s) 24 0 netOnlyU true []
                 "u").2).1 ∧
    extract_text_from_html parseScript pageScript 2000 = "" ∧
    DocScraper.eduSectionsFrom 1
        [(⟨"u", some "u", ""⟩ : ScrapedDoc)]
      = some [DocScraper.eduSectionStr 1 "u" ⟨"u", some "u", ""⟩] :=
  ⟨⟨by decide, by decide, by simp [parseScript]⟩,
   (C8_amended_empty_extraction_section (fun s => s) 24 0 netOnlyU
      parseScript).1 [] "u" [] pageScript forestScript (by decide)
      (by decide) (by simp [parseScript]),
   by decide, by decide⟩
